import Mathlib

/-!
Verification of the fooljs cost-directed algebraic simplifier.

The repository contains two coexisting revisions of its token model:

* the "legacy" revision (src/src/token.ts with refTypes digit/variable/expr/op,
  together with src/src/actions.ts and src/src/terms.ts) in which refs carry a
  token text and rewrite functions work directly on token arrays; and
* the "core" revision (the ARef class of src/arch/token.ts with refTypes
  number/symbol/op, together with src/src/goal.ts, src/src/model.ts,
  src/src/applyMul.ts, src/src/applyDiv.ts and src/src/search.ts) in which refs
  carry a canonical symbol and rewrite generators yield AModel search nodes.

Both are embedded below, in namespaces `Legacy` and `Core`.  JavaScript
index-based loops are modelled by structurally recursive functions over an
explicit iteration budget (`fuel`), always called with enough fuel for the
whole loop, so that every definition is executable by kernel reduction.
-/

namespace FoolJS

/-! ### Cost constants (src/src/terms.ts, COST) -/

namespace COST

def ADD_ZERO : Int := 1
def ADD_SINGLE_DIGIT : Int := 1
def ADD_PER_DIGIT : Int := 1
def SUB_IDENTICAL : Int := 1
def SUB_DIFF_BY_ONE : Int := 2
def SUB_PER_DIGIT : Int := 1
def MUL_BY_ZERO : Int := 1
def MUL_BY_ONE : Int := 1
def MUL_SINGLE_DIGIT : Int := 2
/-- Exponent for digit-based multiplication cost (cost = digits^exp). -/
def MUL_DIGIT_EXPONENT : Nat := 2
def VAR_BASE_COST : Int := 10
def VAR_COMBINE_COST : Int := 3
def VAR_CANCEL_REWARD : Int := -5
def EXPR_COMBINE_COST : Int := 2
def COEFF_VAR_MUL : Int := 2
def SAME_VAR_MUL : Int := 2
def DIV_COST : Int := 2

end COST

/-! ### Digit counting (src/src/terms.ts, countDigits)

`countDigits(value)` is `Math.abs(value).toString().length`; for integers this
is the number of decimal digits of the absolute value.  The recursion is over
an explicit fuel which the wrapper instantiates large enough (`n` iterations
always suffice because the argument shrinks by a factor of ten each step). -/

def digitsLenFuel : Nat → Nat → Nat
  | 0, _ => 1
  | fuel + 1, n => if n < 10 then 1 else 1 + digitsLenFuel fuel (n / 10)

def countDigits (value : Int) : Int :=
  (digitsLenFuel value.natAbs value.natAbs : Int)

/-! ### JavaScript parseInt (used via `parseInt(text, 10)` in several files)

`parseIntJS` parses an optional leading minus sign followed by a leading run
of decimal digits; it returns `none` where JavaScript would return `NaN`. -/

def parseLeadingNat (cs : List Char) : Option Nat :=
  let ds := cs.takeWhile Char.isDigit
  if ds.isEmpty then none
  else some (ds.foldl (fun a c => 10 * a + (c.toNat - 48)) 0)

def parseIntJS (s : String) : Option Int :=
  match s.data with
  | [] => none
  | c :: rest =>
    if c = '-' then (parseLeadingNat rest).map (fun n => -(n : Int))
    else (parseLeadingNat (c :: rest)).map (fun n => (n : Int))

/-- String.prototype.startsWith, computed on the character lists. -/
def charListHasLead : List Char → List Char → Bool
  | [], _ => true
  | _ :: _, [] => false
  | p :: ps, c :: cs => p == c && charListHasLead ps cs

def strStartsWith (s p : String) : Bool := charListHasLead p.data s.data

/-! ## Legacy world: src/src/token.ts, terms.ts, actions.ts -/

namespace Legacy

/-- RefType of src/src/token.ts: 'digit' | 'variable' | 'expr' | 'op'
('variable' is rendered `var_` because `variable` is a Lean keyword). -/
inductive RefType where
  | digit
  | var_
  | expr
  | op
deriving DecidableEq, Repr

/-- An ARef of src/src/token.ts, as observed by the embedded functions:
token text, optional numeric value, refType, and source refs.
(The cached `variables` list and parse-time `role`/`sign`/`power` annotations
are not read by any embedded legacy function and are omitted.) -/
inductive ARef where
  | mk (text : String) (value : Option Int) (refType : RefType) (arefs : List ARef)

def ARef.text : ARef → String
  | .mk t _ _ _ => t

def ARef.value : ARef → Option Int
  | .mk _ v _ _ => v

def ARef.refType : ARef → RefType
  | .mk _ _ rt _ => rt

def ARef.arefs : ARef → List ARef
  | .mk _ _ _ rs => rs

def getRefText (r : ARef) : String := r.text

def isNumber (r : ARef) : Bool := r.refType == RefType.digit

def isVariable (r : ARef) : Bool := r.refType == RefType.var_

def tokenEquals (r : ARef) (s : String) : Bool := getRefText r == s

/-- inferRefType of src/src/token.ts.  The regular expression test for a pure
number is an optional leading minus followed by one or more digits, matching
the whole text. -/
def isIntString (s : String) : Bool :=
  match s.data with
  | [] => false
  | c :: rest =>
    if c = '-' then !rest.isEmpty && rest.all Char.isDigit
    else (c :: rest).all Char.isDigit

def isSingleLetterString (s : String) : Bool :=
  match s.data with
  | [c] => c.isAlpha
  | _ => false

def inferRefType (text : String) : RefType :=
  if text == "+" || text == "-" || text == "*" || text == "/" || text == "^"
      || text == "(" || text == ")" then RefType.op
  else if isIntString text then RefType.digit
  else if isSingleLetterString text then RefType.var_
  else RefType.expr

/-- createAref of src/src/token.ts (the cached `variables` field is omitted,
see `ARef`). -/
def createAref (text : String) (sourceArefs : List ARef := [])
    (value : Option Int := none) : ARef :=
  ARef.mk text value (inferRefType text) sourceArefs

/-- splice of src/src/token.ts: `[...slice(0,start), ...replacement, ...slice(end)]`. -/
def splice (tokens : List ARef) (start stop : Nat) (replacement : List ARef) :
    List ARef :=
  tokens.take start ++ replacement ++ tokens.drop stop

/-- Out-of-range list access; loop guards keep every embedded access in range. -/
def getAt (tokens : List ARef) (i : Nat) : ARef :=
  (tokens.get? i).getD (ARef.mk "" none RefType.expr [])

/-! ### Cost calculation helpers (src/src/terms.ts) -/

def calculateAdditionCost (leftValue rightValue : Int) : Int :=
  if leftValue == 0 || rightValue == 0 then COST.ADD_ZERO
  else if countDigits leftValue == 1 && countDigits rightValue == 1 then
    COST.ADD_SINGLE_DIGIT
  else max (countDigits leftValue) (countDigits rightValue) * COST.ADD_PER_DIGIT

def calculateSubtractionCost (leftValue rightValue : Int) : Int :=
  if leftValue == rightValue then COST.SUB_IDENTICAL
  else if (leftValue - rightValue).natAbs == 1 then COST.SUB_DIFF_BY_ONE
  else max (countDigits leftValue) (countDigits rightValue) * COST.SUB_PER_DIGIT

def calculateMultiplicationCost (leftValue rightValue : Int) : Int :=
  if leftValue == 0 || rightValue == 0 then COST.MUL_BY_ZERO
  else if leftValue == 1 || rightValue == 1 then COST.MUL_BY_ONE
  else if countDigits leftValue == 1 && countDigits rightValue == 1 then
    COST.MUL_SINGLE_DIGIT
  else max (countDigits leftValue) (countDigits rightValue) ^ COST.MUL_DIGIT_EXPONENT

/-! ### Terms (src/src/terms.ts) -/

/-- The sign preceding a term. -/
inductive Sign where
  | plus
  | minus
deriving DecidableEq, Repr

/-- Term of src/src/terms.ts. -/
structure Term where
  startIdx : Nat
  endIdx : Nat
  refs : List ARef
  sign : Sign
  isNumber : Bool
  isVariable : Bool
  isExpr : Bool
  variableName : Option String := none
  power : Option Int := none
  numericValue : Option Int := none

/-- calculateTermAddCost of src/src/terms.ts.  `a.refs[0]` on an empty refs
list would throw in JavaScript; `extractTerms` only ever builds nonempty
`refs`, and the fallback text is irrelevant to every cost branch. -/
def calculateTermAddCost (a b : Term) (op : Sign) : Int :=
  if a.isNumber && b.isNumber then
    let aVal := a.numericValue.getD 0
    let bVal := b.numericValue.getD 0
    if op == Sign.plus then calculateAdditionCost aVal bVal
    else calculateSubtractionCost aVal bVal
  else if a.isVariable && b.isVariable then
    if op == Sign.minus && a.variableName == b.variableName && a.power == b.power
    then COST.VAR_CANCEL_REWARD
    else COST.VAR_COMBINE_COST
  else if a.isExpr || b.isExpr then
    let aText := ((a.refs.head?).map ARef.text).getD ""
    let bText := ((b.refs.head?).map ARef.text).getD ""
    if op == Sign.minus && aText == bText then COST.VAR_CANCEL_REWARD
    else COST.EXPR_COMBINE_COST
  else COST.VAR_BASE_COST

/-- getVariablePower of src/src/terms.ts. -/
structure VariablePowerResult where
  variable_ : Option ARef
  power : Option Int
  endIndex : Nat

def getVariablePower (tokens : List ARef) (startIdx : Nat) : VariablePowerResult :=
  if startIdx ≥ tokens.length then ⟨none, none, startIdx⟩
  else if isVariable (getAt tokens startIdx) then
    if startIdx + 2 < tokens.length
        && tokenEquals (getAt tokens (startIdx + 1)) "^"
        && isNumber (getAt tokens (startIdx + 2)) then
      ⟨some (getAt tokens startIdx),
        parseIntJS (getRefText (getAt tokens (startIdx + 2))), startIdx + 3⟩
    else ⟨some (getAt tokens startIdx), some 1, startIdx + 1⟩
  else ⟨none, none, startIdx⟩

/-! ### Direct apply functions (src/src/actions.ts lines 642-814) -/

/-- Body of one iteration of the applyDiv loop of src/src/actions.ts. -/
def applyDivBody (tokens : List ARef) (i : Nat) : Option (List ARef) :=
  if tokenEquals (getAt tokens i) "/" then
    let left := getAt tokens (i - 1)
    let right := getAt tokens (i + 1)
    let numCase : Option (List ARef) :=
      if isNumber left && isNumber right then
        match parseIntJS (getRefText right), parseIntJS (getRefText left) with
        | some rightVal, some leftVal =>
          if rightVal ≠ 0 ∧ Int.tmod leftVal rightVal = 0 then
            -- Math.floor(leftVal / rightVal)
            let resultValue := Int.fdiv leftVal rightVal
            let resultAref := createAref (toString resultValue) [left, right]
            some (splice tokens (i - 1) (i + 2) [resultAref])
          else none
        | _, _ => none  -- parseInt yielded NaN: both guard comparisons fail
      else none
    match numCase with
    | some result => some result
    | none =>
      let leftResult := getVariablePower tokens (i - 1)
      let rightResult := getVariablePower tokens (i + 1)
      match leftResult.variable_, rightResult.variable_ with
      | some lv, some rv =>
        if getRefText lv == getRefText rv then
          let powerDiff := leftResult.power.getD 1 - rightResult.power.getD 1
          if powerDiff = 0 then
            let sourceArefs := (tokens.drop (i - 1)).take (rightResult.endIndex - (i - 1))
            let oneAref := createAref "1" sourceArefs
            some (splice tokens (i - 1) rightResult.endIndex [oneAref])
          else if powerDiff = 1 then
            some (splice tokens (i - 1) rightResult.endIndex [lv])
          else
            let sourceArefs := (tokens.drop (i - 1)).take (rightResult.endIndex - (i - 1))
            let powerAref := createAref (toString powerDiff) sourceArefs
            let caretAref := createAref "^"
            some (splice tokens (i - 1) rightResult.endIndex [lv, caretAref, powerAref])
        else none
      | _, _ => none
  else none

def applyDivLoop (tokens : List ARef) : Nat → Nat → Option (List ARef)
  | 0, _ => none
  | fuel + 1, i =>
    if i < tokens.length - 1 then
      match applyDivBody tokens i with
      | some result => some result
      | none => applyDivLoop tokens fuel (i + 1)
    else none

/-- applyDiv of src/src/actions.ts (lines 642-690): the first applicable
division rewrite, scanning `/` positions left to right. -/
def applyDiv (tokens : List ARef) : Option (List ARef) :=
  applyDivLoop tokens tokens.length 1

/-- isPartOfMultiplication, local to applyCancel in src/src/actions.ts. -/
def isPartOfMultiplication (tokens : List ARef) (index : Nat) : Bool :=
  (decide (0 < index) && tokenEquals (getAt tokens (index - 1)) "*")
    || (decide (index + 1 < tokens.length) && tokenEquals (getAt tokens (index + 1)) "*")

/-- Inner scan of applyCancel: find `opB` at `j` followed by a token whose text
matches `termText`, not embedded in a multiplication; remove `j, j+1` and then
`i, i+1`. -/
def cancelInner (tokens : List ARef) (i : Nat) (termText : String) (opB : String) :
    Nat → Nat → Option (List ARef)
  | 0, _ => none
  | fuel + 1, j =>
    if j < tokens.length then
      if tokenEquals (getAt tokens j) opB
          && decide (j + 1 < tokens.length)
          && getRefText (getAt tokens (j + 1)) == termText
          && !isPartOfMultiplication tokens (j + 1) then
        some (splice (splice tokens j (j + 2) []) i (i + 2) [])
      else cancelInner tokens i termText opB fuel (j + 1)
    else none

/-- Outer scan of applyCancel: find `opA` at `i` whose following term has a
matching partner introduced by `opB` further right. -/
def cancelOuter (tokens : List ARef) (opA opB : String) :
    Nat → Nat → Option (List ARef)
  | 0, _ => none
  | fuel + 1, i =>
    if i < tokens.length then
      if tokenEquals (getAt tokens i) opA && decide (i + 1 < tokens.length)
          && !isPartOfMultiplication tokens (i + 1) then
        match cancelInner tokens i (getRefText (getAt tokens (i + 1))) opB
            tokens.length (i + 2) with
        | some result => some result
        | none => cancelOuter tokens opA opB fuel (i + 1)
      else cancelOuter tokens opA opB fuel (i + 1)
    else none

/-- Third phase of applyCancel: the first token is an implicitly positive term;
look for `- term` to its right. -/
def cancelLeadingInner (tokens : List ARef) (termText : String) :
    Nat → Nat → Option (List ARef)
  | 0, _ => none
  | fuel + 1, i =>
    if i < tokens.length then
      if decide (i + 1 < tokens.length)
          && tokenEquals (getAt tokens i) "-"
          && getRefText (getAt tokens (i + 1)) == termText
          && !isPartOfMultiplication tokens (i + 1) then
        some (splice (splice tokens i (i + 2) []) 0 1 [])
      else cancelLeadingInner tokens termText fuel (i + 1)
    else none

/-- applyCancel of src/src/actions.ts (lines 692-763). -/
def applyCancel (tokens : List ARef) : Option (List ARef) :=
  match cancelOuter tokens "+" "-" tokens.length 0 with
  | some result => some result
  | none =>
    match cancelOuter tokens "-" "+" tokens.length 0 with
    | some result => some result
    | none =>
      if decide (3 ≤ tokens.length)
          && !tokenEquals (getAt tokens 0) "+"
          && !tokenEquals (getAt tokens 0) "-"
          && !isPartOfMultiplication tokens 0 then
        cancelLeadingInner tokens (getRefText (getAt tokens 0)) tokens.length 1
      else none

def applySubToAddLoop (tokens : List ARef) : Nat → Nat → Option (List ARef)
  | 0, _ => none
  | fuel + 1, i =>
    if i < tokens.length then
      if tokenEquals (getAt tokens i) "-" && decide (i + 1 < tokens.length)
          && isNumber (getAt tokens (i + 1)) then
        let nextToken := getAt tokens (i + 1)
        let plusAref := createAref "+"
        let negativeAref := createAref ("-" ++ getRefText nextToken) [nextToken]
        some (splice tokens i (i + 2) [plusAref, negativeAref])
      else applySubToAddLoop tokens fuel (i + 1)
    else none

/-- applySubToAdd of src/src/actions.ts (lines 765-777); note the scan starts
at index 1, so a leading minus is left for applyCleanup. -/
def applySubToAdd (tokens : List ARef) : Option (List ARef) :=
  applySubToAddLoop tokens tokens.length 1

/-- applyCleanup of src/src/actions.ts (lines 779-798). -/
def applyCleanup (tokens : List ARef) : Option (List ARef) :=
  if tokens.length = 0 then none
  else if tokenEquals (getAt tokens 0) "+" then
    some (splice tokens 0 1 [])
  else if tokenEquals (getAt tokens 0) "-" && decide (1 < tokens.length) then
    if isNumber (getAt tokens 1) then
      let negativeAref := createAref ("-" ++ getRefText (getAt tokens 1)) [getAt tokens 1]
      some (splice tokens 0 2 [negativeAref])
    else some tokens
  else none

end Legacy

/-! ## Core world: the ARef class revision

src/arch/token.ts (ARef class), src/src/goal.ts, src/src/model.ts,
src/src/applyMul.ts, src/src/applyDiv.ts, src/src/search.ts. -/

namespace Core

/-- RefType of the class revision: 'number' | 'symbol' | 'op'. -/
inductive RefType where
  | number
  | symbol
  | op
deriving DecidableEq, Repr

/-- TokenRole: 'term' | 'operator' | 'sign'. -/
inductive TokenRole where
  | term
  | operator
  | signRole
deriving DecidableEq, Repr

/-- A ref's `value` field holds an integer for numbers and a name string for
variables (`value: any` in the source, documented "for digits - value, for
variables - name"). -/
inductive AVal where
  | int (n : Int)
  | str (s : String)
deriving DecidableEq, Repr

/-- The kind tag of a DelayedOp (src/src/token.ts).  The operand refs of a
delayed operation always coincide with the carrying ref's `arefs` in the
embedded generators, so only the kind is recorded. -/
inductive DOpKind where
  | add
  | sub
  | mul
  | div
  | pow
  | combine
  | wrap
deriving DecidableEq, Repr

/-- The ARef class (src/arch/token.ts), restricted to the fields the embedded
functions read: refType, value, symbol, token text, child refs, the parse-time
`role` annotation (stored by the revision src/src/model.ts pairs with), and
the kind of an attached delayed operation. -/
inductive ARef where
  | mk (refType : RefType) (value : Option AVal) (symbol : Option String)
      (text : String) (arefs : List ARef) (role : Option TokenRole)
      (delayedOp : Option DOpKind)

def ARef.refType : ARef → RefType
  | .mk rt _ _ _ _ _ _ => rt

def ARef.value : ARef → Option AVal
  | .mk _ v _ _ _ _ _ => v

def ARef.symbol : ARef → Option String
  | .mk _ _ s _ _ _ _ => s

def ARef.text : ARef → String
  | .mk _ _ _ t _ _ _ => t

def ARef.arefs : ARef → List ARef
  | .mk _ _ _ _ rs _ _ => rs

def ARef.role : ARef → Option TokenRole
  | .mk _ _ _ _ _ r _ => r

def ARef.delayedOp : ARef → Option DOpKind
  | .mk _ _ _ _ _ _ d => d

def ARef.isNumber (r : ARef) : Bool := r.refType == RefType.number

def ARef.isSymbol (r : ARef) : Bool := r.refType == RefType.symbol

def ARef.isOp (r : ARef) : Bool := r.refType == RefType.op

/-- isInternalSymbol: `(this.symbol && this.symbol[0] === "?") ? true : false`
(an empty string is falsy and yields false, as does a null symbol). -/
def ARef.isInternalSymbol (r : ARef) : Bool :=
  match r.symbol with
  | some s => strStartsWith s "?"
  | none => false

/-- isPublicVariable: `(this.symbol && this.symbol[0] !== "?") ? true : false`. -/
def ARef.isPublicVariable (r : ARef) : Bool :=
  match r.symbol with
  | some s => s ≠ "" && !(strStartsWith s "?")
  | none => false

/-- isExp: `this.arefs?.length >= 2 && this.arefs[1].token?.text === '^'`. -/
def ARef.isExp (r : ARef) : Bool :=
  decide (2 ≤ r.arefs.length)
    && (match r.arefs.get? 1 with
        | some a => a.text == "^"
        | none => false)

def ARef.getBase (r : ARef) : ARef :=
  if r.isExp then (r.arefs.get? 0).getD r else r

/-- The `createNumberRef(1)` value produced by `getPower` on a non-exponent ref. -/
def numberOneRef : ARef :=
  ARef.mk RefType.number (some (AVal.int 1)) none "1" [] none none

/-- getPower: `this.arefs[2]` for exponent refs (always present for the
three-child `[base, ^, exponent]` shape), else a fresh number ref of value 1. -/
def ARef.getPower (r : ARef) : ARef :=
  if r.isExp then (r.arefs.get? 2).getD numberOneRef else numberOneRef

/-- getVariableName: `return this.value as string` (the raw value field). -/
def ARef.getVariableNameV (r : ARef) : Option AVal := r.value

def avalToString : AVal → String
  | .int n => toString n
  | .str s => s

/-- JavaScript truthiness of a value field: null/undefined, 0 and the empty
string are falsy. -/
def avalTruthy : Option AVal → Bool
  | none => false
  | some (.int n) => n != 0
  | some (.str s) => s != ""

/-- JavaScript strict equality on value fields (mixed types are unequal). -/
def avalEqJS : AVal → AVal → Bool
  | .int a, .int b => a == b
  | .str a, .str b => a == b
  | _, _ => false

def getRefText (r : ARef) : String := r.text

/-- tokenEquals of src/src/token.ts (the module these files import from)
compares the token text.  All refs built below carry identical `text` and
`symbol` strings, so this also agrees with the symbol-comparing revision. -/
def tokenEquals (r : ARef) (s : String) : Bool := getRefText r == s

def splice (tokens : List ARef) (start stop : Nat) (replacement : List ARef) :
    List ARef :=
  tokens.take start ++ replacement ++ tokens.drop stop

def getAt (tokens : List ARef) (i : Nat) : ARef :=
  (tokens.get? i).getD (ARef.mk RefType.op none none "" [] none none)

/-- inferRefTypeForTokens of src/src/token.ts: all-number sources give a
number result, otherwise a symbol (the legacy names are digit/expr). -/
def inferRefTypeForTokens (sourceArefs : List ARef) : RefType :=
  if sourceArefs.all (fun r => r.refType == RefType.number) then RefType.number
  else RefType.symbol

/-- createDelayedRef: a fresh composite carrying the delayed-operation kind.
The legacy constructor stores the name string as the token text; the class
revision reads canonical names from `symbol`; the embedding records the same
string in both fields. -/
def createDelayedRef (text : String) (sourceArefs : List ARef) (kind : DOpKind) :
    ARef :=
  ARef.mk (inferRefTypeForTokens sourceArefs) none (some text) text sourceArefs
    none (some kind)

/-! ### Goal recognizer (src/src/goal.ts, isLinearExpressionGoal) -/

/-- One JavaScript count update `counts[key] = counts[key] ?? 0 + 1`.
Operator precedence parses the right-hand side as `counts[key] ?? (0 + 1)`:
an absent key is set to 1, a present key is re-assigned its existing value. -/
def assignNullish (counts : List (String × Int)) (key : String) :
    List (String × Int) :=
  if (counts.lookup key).isSome then counts else counts ++ [(key, 0 + 1)]

/-- The token loop of isLinearExpressionGoal; `none` models an early
`return false`. -/
def goalLoop : List ARef → List (String × Int) → Option (List (String × Int))
  | [], counts => some counts
  | token :: rest, counts =>
    if token.isNumber then goalLoop rest (assignNullish counts "_number")
    else if token.isOp then goalLoop rest counts
    else if token.isInternalSymbol then
      match token.arefs with
      | [t1, t2, t3] =>
        if t2.symbol == some "*" then
          if t1.isNumber && t3.isPublicVariable then
            goalLoop rest (assignNullish counts (t3.symbol.getD "null"))
          else if t3.isNumber && t1.isPublicVariable then
            goalLoop rest (assignNullish counts (t1.symbol.getD "null"))
          else none
        else none
      | _ => none
    else goalLoop rest (assignNullish counts (token.symbol.getD "null"))

/-- isLinearExpressionGoal of src/src/goal.ts. -/
def isLinearExpressionGoal (refs : List ARef) : Bool :=
  if (match refs with
      | [r] => r.isNumber
      | _ => false) then true
  else
    match goalLoop refs [] with
    | none => false
    | some counts => counts.all (fun p => p.2 == 1)

/-! ### Heuristic (src/src/model.ts, getApproxCost) -/

/-- Math.log10 of MAX_EXPR_VALUE = 100. -/
def log10MaxExprValue : Int := 2

/-- The string interpolation of `power.value ?? 1`. -/
def powValueText (p : ARef) : String :=
  match p.value with
  | none => "1"
  | some v => avalToString v

/-- The compatibility key a term is grouped under. -/
def groupKey (term : ARef) : String :=
  match term.refType with
  | RefType.number => "number"
  | RefType.symbol => (term.symbol.getD "") ++ "^" ++ powValueText term.getPower
  | _ => "other:" ++ (term.symbol.getD "null")

/-- The key set of a JavaScript Map built by insertion: first occurrences, in
order. -/
def firstKeys (ks : List String) : List String :=
  ks.foldl (fun acc k => if acc.contains k then acc else acc ++ [k]) []

/-- Per-group combination base cost as written in getApproxCost.  Group keys
are "number", `name^power`, or `other:...`; none of them is ever produced with
the prefix "expr:", so the middle branch is unreachable for cache-named
composites. -/
def groupBaseCost (key : String) : Int :=
  if key == "number" then COST.ADD_PER_DIGIT * log10MaxExprValue
  else if strStartsWith key "expr:" then COST.EXPR_COMBINE_COST
  else COST.VAR_COMBINE_COST

/-- The operator filter: `r.refType === 'op' && r.symbol && ['*','/','^'].includes(r.symbol)`. -/
def isMulDivPowOp (r : ARef) : Bool :=
  r.refType == RefType.op
    && (match r.symbol with
        | some s => s == "*" || s == "/" || s == "^"
        | none => false)

/-- getApproxCost of src/src/model.ts (lines 81-163).  The JavaScript
Map-of-arrays grouping is rendered by its denotation: keys in first-insertion
order, each paired with the terms carrying that key, in order. -/
def getApproxCost (refs : List ARef) : Int :=
  if isLinearExpressionGoal refs then 0
  else
    let terms := refs.filter (fun r => r.role == some TokenRole.term)
    if terms.length ≤ 1 then
      ((refs.filter (fun r => !(r.refType == RefType.op))).length : Int)
    else
      let keys := firstKeys (terms.map groupKey)
      let groups := keys.map (fun k => (k, terms.filter (fun t => groupKey t == k)))
      let combineCost := (groups.map (fun g =>
        if g.2.length ≤ 1 then 0
        else ((g.2.length : Int) - 1) * groupBaseCost g.1)).sum
      let gapCost :=
        if 1 < groups.length then ((groups.length : Int) - 1) * COST.VAR_BASE_COST
        else 0
      let operators := refs.filter isMulDivPowOp
      let opCost :=
        if 0 < operators.length then
          (operators.length : Int) * COST.MUL_SINGLE_DIGIT * log10MaxExprValue
        else 0
      combineCost + gapCost + opCost

/-- The heuristic exactly as claim C3 words it: number groups at
add-per-digit·log10(MAX), composite (cache-named `?k`) groups at expr-combine,
variable groups at var-combine; plus the group-gap and operator charges. -/
def claimBaseC3 (key : String) : Int :=
  if key == "number" then COST.ADD_PER_DIGIT * log10MaxExprValue
  else if strStartsWith key "?" then COST.EXPR_COMBINE_COST
  else COST.VAR_COMBINE_COST

def heuristicClaimC3 (refs : List ARef) : Int :=
  if isLinearExpressionGoal refs then 0
  else
    let terms := refs.filter (fun r => r.role == some TokenRole.term)
    let keys := firstKeys (terms.map groupKey)
    let combine := (keys.map (fun k =>
      let n := terms.countP (fun t => groupKey t == k)
      if 2 ≤ n then ((n : Int) - 1) * claimBaseC3 k else 0)).sum
    let gap :=
      if 1 < keys.length then ((keys.length : Int) - 1) * COST.VAR_BASE_COST else 0
    let operators := refs.filter isMulDivPowOp
    combine + gap
      + (operators.length : Int) * COST.MUL_SINGLE_DIGIT * log10MaxExprValue

/-- The amended heuristic description: identical to the claim except that
every non-number group (composite and variable alike) is charged var-combine,
and a non-goal state with at most one term-role ref is instead charged its
count of non-operator refs. -/
def amendedBaseC3 (key : String) : Int :=
  if key == "number" then COST.ADD_PER_DIGIT * log10MaxExprValue
  else COST.VAR_COMBINE_COST

def heuristicAmendedC3 (refs : List ARef) : Int :=
  if isLinearExpressionGoal refs then 0
  else
    let terms := refs.filter (fun r => r.role == some TokenRole.term)
    if terms.length ≤ 1 then
      ((refs.filter (fun r => !(r.refType == RefType.op))).length : Int)
    else
      let keys := firstKeys (terms.map groupKey)
      let combine := (keys.map (fun k =>
        let n := terms.countP (fun t => groupKey t == k)
        if 2 ≤ n then ((n : Int) - 1) * amendedBaseC3 k else 0)).sum
      let gap :=
        if 1 < keys.length then ((keys.length : Int) - 1) * COST.VAR_BASE_COST
        else 0
      let operators := refs.filter isMulDivPowOp
      let opCost :=
        if 0 < operators.length then
          (operators.length : Int) * COST.MUL_SINGLE_DIGIT * log10MaxExprValue
        else 0
      combine + gap + opCost

/-! ### Models (src/src/model.ts, AModel) -/

/-- AModel of src/src/model.ts.  The shared symbol cache is process identity
state that none of the embedded functions read and is not modelled. -/
inductive AModel where
  | mk (parent : Option AModel) (transform : String) (refs : List ARef)
      (remainCost : Int) (totalApproxCost : Int) (resultRef : Option ARef)

def AModel.parent : AModel → Option AModel
  | .mk p _ _ _ _ _ => p

def AModel.transform : AModel → String
  | .mk _ t _ _ _ _ => t

def AModel.refs : AModel → List ARef
  | .mk _ _ rs _ _ _ => rs

def AModel.remainCost : AModel → Int
  | .mk _ _ _ rc _ _ => rc

def AModel.totalApproxCost : AModel → Int
  | .mk _ _ _ _ tc _ => tc

def AModel.resultRef : AModel → Option ARef
  | .mk _ _ _ _ _ rr => rr

/-- The AModel constructor: `remainCost = getApproxCost(this)` (computed from
the refs alone) and `totalApproxCost = params.totalApproxCost ?? 0`. -/
def AModel.make (parent : Option AModel) (transform : String) (refs : List ARef)
    (totalApproxCostParam : Option Int) (resultRef : Option ARef) : AModel :=
  AModel.mk parent transform refs (getApproxCost refs)
    (totalApproxCostParam.getD 0) resultRef

def createInitialModel (tokens : List ARef) : AModel :=
  AModel.make none "initial" tokens (some 0) none

def createModel (parent : AModel) (transform : String) (tokens : List ARef)
    (cost : Int) (resultRef : Option ARef := none) : AModel :=
  AModel.make (some parent) transform tokens
    (some (parent.totalApproxCost + cost)) resultRef

/-- The comparator the search driver's min-heap is built with
(src/src/search.ts lines 264-268): the difference of the `remainCost` fields. -/
def modelHeapCompare (a b : AModel) : Int := a.remainCost - b.remainCost

/-! ### Multiplication generator (src/src/applyMul.ts) -/

/-- The coerced numeric value `ref.value ?? parseInt(ref.symbol || '0', 10)`
of a number operand (string values and NaN do not occur on number refs). -/
def jsNumValue (r : ARef) : Int :=
  match r.value with
  | some (AVal.int n) => n
  | some (AVal.str s) => (parseIntJS s).getD 0
  | none => (parseIntJS (r.symbol.getD "0")).getD 0

/-- The power a multiplication operand contributes:
`powerRef.isNumber && typeof powerRef.value === 'number' ? powerRef.value : 1`. -/
def powerValueOrOne (powerRef : ARef) : Int :=
  if powerRef.isNumber then
    match powerRef.value with
    | some (AVal.int n) => n
    | _ => 1
  else 1

/-- One iteration of the applyMul scan (src/src/applyMul.ts lines 13-84): the
coefficient-variable branches, then the same-named-variable branch, then the
number-number branch, each yielding at most one successor model.
The delayed pow operation's exponent ref (minted through the symbol cache) is
only stored inside the delayed operation and is represented by its kind. -/
def applyMulBody (model : AModel) (tokens : List ARef) (i : Nat) : List AModel :=
  if tokenEquals (getAt tokens i) "*" then
    let left := getAt tokens (i - 1)
    let right := getAt tokens (i + 1)
    let op := getAt tokens i
    let coeffPart : List AModel :=
      if left.isNumber && right.isSymbol then
        let varName := right.symbol.getD ""
        let power := powerValueOrOne right.getPower
        let powerStr := if 1 < power then "^" ++ toString power else ""
        let combinedText := (left.symbol.getD "null") ++ varName ++ powerStr
        let resultRef := createDelayedRef combinedText [left, op, right] DOpKind.mul
        [createModel model ("multiply_coeff_var_" ++ toString i)
          (splice tokens (i - 1) (i + 2) [resultRef]) COST.COEFF_VAR_MUL
          (some resultRef)]
      else if left.isSymbol && right.isNumber then
        let varName := left.symbol.getD ""
        let power := powerValueOrOne left.getPower
        let powerStr := if 1 < power then "^" ++ toString power else ""
        let combinedText := (right.symbol.getD "null") ++ varName ++ powerStr
        let resultRef := createDelayedRef combinedText [left, op, right] DOpKind.mul
        [createModel model ("multiply_coeff_var_" ++ toString i)
          (splice tokens (i - 1) (i + 2) [resultRef]) COST.COEFF_VAR_MUL
          (some resultRef)]
      else []
    let sameVarPart : List AModel :=
      if left.isSymbol && right.isSymbol then
        match left.symbol, right.symbol with
        | some leftVarName, some rightVarName =>
          -- `if (leftVarName && rightVarName && leftVarName === rightVarName)`
          if leftVarName ≠ "" ∧ rightVarName ≠ "" ∧ leftVarName = rightVarName then
            let leftPower := powerValueOrOne left.getPower
            let rightPower := powerValueOrOne right.getPower
            let totalPower := leftPower + rightPower
            let resultText :=
              if totalPower = 1 then leftVarName
              else leftVarName ++ "^" ++ toString totalPower
            let resultRef := createDelayedRef resultText [left, op, right] DOpKind.pow
            [createModel model ("multiply_same_var_" ++ toString i)
              (splice tokens (i - 1) (i + 2) [resultRef]) COST.SAME_VAR_MUL
              (some resultRef)]
          else []
        | _, _ => []
      else []
    let numPart : List AModel :=
      if left.isNumber && right.isNumber then
        let leftValue := jsNumValue left
        let rightValue := jsNumValue right
        let cost := Legacy.calculateMultiplicationCost leftValue rightValue
        let resultText :=
          "(" ++ (left.symbol.getD "null") ++ "*" ++ (right.symbol.getD "null") ++ ")"
        let resultRef := createDelayedRef resultText [left, right] DOpKind.mul
        [createModel model ("multiply_numbers_" ++ toString i)
          (splice tokens (i - 1) (i + 2) [resultRef]) cost (some resultRef)]
      else []
    coeffPart ++ sameVarPart ++ numPart
  else []

def applyMulLoop (model : AModel) (tokens : List ARef) :
    Nat → Nat → List AModel
  | 0, _ => []
  | fuel + 1, i =>
    if i < tokens.length - 1 then
      applyMulBody model tokens i ++ applyMulLoop model tokens fuel (i + 1)
    else []

/-- applyMul of src/src/applyMul.ts, as the list of yielded models. -/
def applyMul (model : AModel) : List AModel :=
  applyMulLoop model model.refs model.refs.length 1

/-! ### Division generator (src/src/applyDiv.ts) -/

/-- One iteration of the applyDiv scan (src/src/applyDiv.ts lines 11-81). -/
def applyDivGenBody (model : AModel) (refs : List ARef) (i : Nat) : List AModel :=
  if tokenEquals (getAt refs i) "/" then
    let left := getAt refs (i - 1)
    let right := getAt refs (i + 1)
    let op := getAt refs i
    let numPart : List AModel :=
      if left.isNumber && right.isNumber then
        match parseIntJS (getRefText right), parseIntJS (getRefText left) with
        | some rightVal, some leftVal =>
          if rightVal ≠ 0 ∧ Int.tmod leftVal rightVal = 0 then
            let resultText := "(" ++ getRefText left ++ "/" ++ getRefText right ++ ")"
            let resultRef := createDelayedRef resultText [left, op, right] DOpKind.div
            [createModel model ("divide_numbers_" ++ toString i)
              (splice refs (i - 1) (i + 2) [resultRef]) COST.DIV_COST
              (some resultRef)]
          else []
        | _, _ => []  -- parseInt yielded NaN: both guard comparisons fail
      else []
    let varPart : List AModel :=
      if left.isSymbol && right.isSymbol then
        let leftBase := left.getBase
        let rightBase := right.getBase
        -- `if (leftVarName && rightVarName && leftVarName === rightVarName)`
        if avalTruthy leftBase.getVariableNameV
            && avalTruthy rightBase.getVariableNameV
            && (match leftBase.getVariableNameV, rightBase.getVariableNameV with
                | some a, some b => avalEqJS a b
                | _, _ => false) then
          let leftVarName := avalToString ((leftBase.getVariableNameV).getD (AVal.str "null"))
          let leftPower := left.getPower
          let rightPower := right.getPower
          let resultRef :=
            if leftPower.isNumber && rightPower.isNumber
                && (match leftPower.value with
                    | some (AVal.int _) => true
                    | _ => false)
                && (match rightPower.value with
                    | some (AVal.int _) => true
                    | _ => false) then
              let lp := (match leftPower.value with
                | some (AVal.int n) => n
                | _ => 0)
              let rp := (match rightPower.value with
                | some (AVal.int n) => n
                | _ => 0)
              let powerDiff := lp - rp
              if powerDiff = 0 then
                createDelayedRef "1" [left, op, right] DOpKind.div
              else if powerDiff = 1 then
                createDelayedRef leftVarName [left, op, right] DOpKind.pow
              else if 1 < powerDiff then
                createDelayedRef (leftVarName ++ "^" ++ toString powerDiff)
                  [left, op, right] DOpKind.pow
              else
                createDelayedRef ("1/" ++ leftVarName ++ "^" ++ toString (-powerDiff))
                  [left, op, right] DOpKind.div
            else
              createDelayedRef ("(" ++ getRefText left ++ "/" ++ getRefText right ++ ")")
                [left, op, right] DOpKind.div
          [createModel model ("divide_vars_" ++ toString i)
            (splice refs (i - 1) (i + 2) [resultRef]) COST.DIV_COST
            (some resultRef)]
        else []
      else []
    numPart ++ varPart
  else []

def applyDivGenLoop (model : AModel) (refs : List ARef) :
    Nat → Nat → List AModel
  | 0, _ => []
  | fuel + 1, i =>
    if i < refs.length - 1 then
      applyDivGenBody model refs i ++ applyDivGenLoop model refs fuel (i + 1)
    else []

/-- applyDiv of src/src/applyDiv.ts, as the list of yielded models. -/
def applyDivGen (model : AModel) : List AModel :=
  applyDivGenLoop model model.refs model.refs.length 1

end Core

/-! ## The search driver's MinHeap (src/src/search.ts lines 12-67)

A binary heap over an array, generic in the comparator, exactly as in the
source: push appends and bubbles up; pop moves the last element to the root
and bubbles down. -/

namespace Heap

def swapAt {α : Type} (heap : List α) (i j : Nat) : List α :=
  match heap.get? i, heap.get? j with
  | some a, some b => (heap.set i b).set j a
  | _, _ => heap

def bubbleUp {α : Type} (cmp : α → α → Int) : Nat → List α → Nat → List α
  | 0, heap, _ => heap
  | fuel + 1, heap, index =>
    if index = 0 then heap
    else
      let parentIndex := (index - 1) / 2
      match heap.get? index, heap.get? parentIndex with
      | some x, some p =>
        if 0 ≤ cmp x p then heap
        else bubbleUp cmp fuel (swapAt heap index parentIndex) parentIndex
      | _, _ => heap

def heapPush {α : Type} (cmp : α → α → Int) (heap : List α) (item : α) :
    List α :=
  let h := heap ++ [item]
  bubbleUp cmp h.length h (h.length - 1)

def cmpAt {α : Type} (cmp : α → α → Int) (heap : List α) (i j : Nat) : Bool :=
  match heap.get? i, heap.get? j with
  | some a, some b => decide (cmp a b < 0)
  | _, _ => false

def bubbleDown {α : Type} (cmp : α → α → Int) : Nat → List α → Nat → List α
  | 0, heap, _ => heap
  | fuel + 1, heap, index =>
    let leftChild := 2 * index + 1
    let rightChild := 2 * index + 2
    let s1 := if decide (leftChild < heap.length) && cmpAt cmp heap leftChild index
      then leftChild else index
    let s2 := if decide (rightChild < heap.length) && cmpAt cmp heap rightChild s1
      then rightChild else s1
    if s2 = index then heap
    else bubbleDown cmp fuel (swapAt heap index s2) s2

def heapPop {α : Type} (cmp : α → α → Int) (heap : List α) :
    Option α × List α :=
  if heap.length = 0 then (none, heap)
  else if heap.length = 1 then (heap.get? 0, [])
  else
    let result := heap.get? 0
    let rest := heap.dropLast
    let rest' :=
      match heap.getLast? with
      | some x => rest.set 0 x
      | none => rest
    (result, bubbleDown cmp rest'.length rest' 0)

def heapPopAll {α : Type} (cmp : α → α → Int) : Nat → List α → List α
  | 0, _ => []
  | fuel + 1, heap =>
    match heapPop cmp heap with
    | (some x, h) => x :: heapPopAll cmp fuel h
    | (none, _) => []

/-- The aStarSearch comparator applied to labelled priorities:
`(a, b) => a.remainCost - b.remainCost`. -/
def prioCmp (a b : String × Int) : Int := a.2 - b.2

end Heap

/-! ## Concrete fixtures used by the counterexamples and witnesses -/

/-- A public named variable `x`. -/
def xVarRef : Core.ARef :=
  Core.ARef.mk Core.RefType.symbol (some (Core.AVal.str "x")) (some "x") "x" []
    none none

/-- A public named variable `y`. -/
def yVarRef : Core.ARef :=
  Core.ARef.mk Core.RefType.symbol (some (Core.AVal.str "y")) (some "y") "y" []
    none none

def plusOpRef : Core.ARef :=
  Core.ARef.mk Core.RefType.op none (some "+") "+" [] none none

def mulOpRef : Core.ARef :=
  Core.ARef.mk Core.RefType.op none (some "*") "*" [] none none

def divOpRef : Core.ARef :=
  Core.ARef.mk Core.RefType.op none (some "/") "/" [] none none

def caretOpRef : Core.ARef :=
  Core.ARef.mk Core.RefType.op none (some "^") "^" [] none none

/-- A number ref with symbol and text `s` and integer value `v`. -/
def numRefOf (s : String) (v : Int) : Core.ARef :=
  Core.ARef.mk Core.RefType.number (some (Core.AVal.int v)) (some s) s [] none none

/-- An internal composite `?1` of malformed shape `x + y` (not `c * v`),
marked as a term: a state containing it is not a goal. -/
def q1CompositeRef : Core.ARef :=
  Core.ARef.mk Core.RefType.symbol none (some "?1") "?1"
    [xVarRef, plusOpRef, yVarRef] (some Core.TokenRole.term) none

def c3Refs : List Core.ARef := [q1CompositeRef, plusOpRef, q1CompositeRef]

/-- The composite `x^2` (a symbol ref over children `[x, ^, 2]`). -/
def xSquaredRef : Core.ARef :=
  Core.ARef.mk Core.RefType.symbol none (some "x^2") "x^2"
    [xVarRef, caretOpRef, numRefOf "2" 2] (some Core.TokenRole.term) none

/-- The composite `x^3` (a symbol ref over children `[x, ^, 3]`). -/
def xCubedRef : Core.ARef :=
  Core.ARef.mk Core.RefType.symbol none (some "x^3") "x^3"
    [xVarRef, caretOpRef, numRefOf "3" 3] (some Core.TokenRole.term) none

/-- The state `x^2 * x^3`. -/
def c5Model : Core.AModel :=
  Core.createInitialModel [xSquaredRef, mulOpRef, xCubedRef]

/-- A goal-form parent state holding the single number 5. -/
def c2Parent : Core.AModel := Core.createInitialModel [numRefOf "5" 5]

/-- A child of `c2Parent` produced by a rewrite of local cost 5. -/
def c2Child : Core.AModel := Core.createModel c2Parent "step" [numRefOf "5" 5] 5

/-- Legacy fixture: an operator token built by createAref. -/
def lMinusTok : Legacy.ARef := Legacy.createAref "-"

def lPlusTok : Legacy.ARef := Legacy.createAref "+"

def lOneTok : Legacy.ARef := Legacy.createAref "1" [] (some 1)

/-- A legacy digit token whose text is the (already negative) numeral -3. -/
def lNegThreeTok : Legacy.ARef := Legacy.createAref "-3" [] (some (-3))

/-- Legacy variable tokens for the cancel scenarios. -/
def lVarA : Legacy.ARef := Legacy.createAref "a"

def lVarU : Legacy.ARef := Legacy.createAref "u"

def lVarT : Legacy.ARef := Legacy.createAref "t"

/-- A sequence holding two cancellable pairs: `a + u - u + t - t`. -/
def c7CexTokens : List Legacy.ARef :=
  [lVarA, lPlusTok, lVarU, lMinusTok, lVarU, lPlusTok, lVarT, lMinusTok, lVarT]

/-- The ref the C8 counterexample produces: text `--3`. -/
def c8CexOut : Legacy.ARef := Legacy.createAref ("-" ++ "-3") [lNegThreeTok]

/-- The ref the C10 counterexample produces: text `--3`. -/
def c10CexOut : Legacy.ARef := Legacy.createAref ("-" ++ "-3") [lNegThreeTok]

/-- A legacy number token with (unsigned numeral) text `s`. -/
def lDigitTok (s : String) : Legacy.ARef :=
  Legacy.ARef.mk s none Legacy.RefType.digit []

def lSlashTok : Legacy.ARef := Legacy.createAref "/"

/-- The heap content for the tie-break run: A then C then B, with A and B of
equal priority 5 and C cheaper. -/
def c9Heap : List (String × Int) :=
  Heap.heapPush Heap.prioCmp
    (Heap.heapPush Heap.prioCmp
      (Heap.heapPush Heap.prioCmp [] ("A", 5)) ("C", 1)) ("B", 5)

/-- The expected single successor of `applyDiv` on a three-token
`number / number` state, built through the same constructors the generator
uses. -/
def c6ExpectedModel (L R : Int) (sL sR : String) : Core.AModel :=
  Core.createModel (Core.createInitialModel [numRefOf sL L, divOpRef, numRefOf sR R])
    ("divide_numbers_" ++ toString 1)
    [Core.createDelayedRef ("(" ++ sL ++ "/" ++ sR ++ ")")
      [numRefOf sL L, divOpRef, numRefOf sR R] Core.DOpKind.div]
    COST.DIV_COST
    (some (Core.createDelayedRef ("(" ++ sL ++ "/" ++ sR ++ ")")
      [numRefOf sL L, divOpRef, numRefOf sR R] Core.DOpKind.div))

/-- The flat cost the legacy search driver charges a token-list rewrite
(src/src/search.ts: `const newCost = cost + 1` in the old-format branch). -/
def tokenListRewriteCost : Int := 1

/-- A parent model used to instantiate the path-cost statements. -/
def c4Parent : Core.AModel := Core.createInitialModel []

/-! ## Helper lemmas -/

theorem digitsLenFuel_pos (fuel n : Nat) : 1 ≤ digitsLenFuel fuel n := by
  cases fuel with
  | zero => simp [digitsLenFuel]
  | succ fuel =>
    unfold digitsLenFuel
    split <;> omega

theorem countDigits_pos (v : Int) : 1 ≤ countDigits v := by
  unfold countDigits
  exact_mod_cast digitsLenFuel_pos _ _

theorem legacy_additionCost_pos (a b : Int) :
    1 ≤ Legacy.calculateAdditionCost a b := by
  unfold Legacy.calculateAdditionCost
  split
  · simp [COST.ADD_ZERO]
  split
  · simp [COST.ADD_SINGLE_DIGIT]
  · have ha := countDigits_pos a
    have hb := countDigits_pos b
    simp only [COST.ADD_PER_DIGIT, mul_one]
    exact le_trans ha (le_max_left _ _)

theorem legacy_subtractionCost_pos (a b : Int) :
    1 ≤ Legacy.calculateSubtractionCost a b := by
  unfold Legacy.calculateSubtractionCost
  split
  · simp [COST.SUB_IDENTICAL]
  split
  · simp [COST.SUB_DIFF_BY_ONE]
  · have ha := countDigits_pos a
    have hb := countDigits_pos b
    simp only [COST.SUB_PER_DIGIT, mul_one]
    exact le_trans ha (le_max_left _ _)

theorem legacy_multiplicationCost_pos (a b : Int) :
    1 ≤ Legacy.calculateMultiplicationCost a b := by
  unfold Legacy.calculateMultiplicationCost
  split
  · simp [COST.MUL_BY_ZERO]
  split
  · simp [COST.MUL_BY_ONE]
  split
  · simp [COST.MUL_SINGLE_DIGIT]
  · have ha := countDigits_pos a
    have h1 : (1 : Int) ≤ max (countDigits a) (countDigits b) :=
      le_trans ha (le_max_left _ _)
    calc (1 : Int) = 1 ^ COST.MUL_DIGIT_EXPONENT := by simp
    _ ≤ max (countDigits a) (countDigits b) ^ COST.MUL_DIGIT_EXPONENT :=
      pow_le_pow_left₀ (by norm_num) h1 _

theorem firstKeys_foldl_mem (ks acc : List String) {k : String}
    (h : k ∈ ks.foldl (fun acc k => if acc.contains k then acc else acc ++ [k]) acc) :
    k ∈ acc ∨ k ∈ ks := by
  induction ks generalizing acc with
  | nil => exact Or.inl h
  | cons a as ih =>
    simp only [List.foldl_cons] at h
    rcases ih _ h with h' | h'
    · by_cases hc : acc.contains a = true
      · rw [if_pos hc] at h'
        exact Or.inl h'
      · rw [if_neg hc] at h'
        rcases List.mem_append.mp h' with h'' | h''
        · exact Or.inl h''
        · have hEq : k = a := by simpa using h''
          exact Or.inr (hEq ▸ List.mem_cons_self _ _)
    · exact Or.inr (List.mem_cons_of_mem _ h')

theorem firstKeys_mem {ks : List String} {k : String}
    (h : k ∈ Core.firstKeys ks) : k ∈ ks := by
  rcases firstKeys_foldl_mem ks [] h with h' | h'
  · cases h'
  · exact h'

theorem dash_append_data (s : String) : ("-" ++ s).data = '-' :: s.data := by
  simp [String.data_append]

theorem data_ne_nil_of_ne_empty {s : String} (h : s ≠ "") : s.data ≠ [] := by
  intro hd
  apply h
  cases s
  simp_all

/-- A minus sign followed by a nonempty run of digits is classified as a
number by inferRefType. -/
theorem inferRefType_dash_digits (s : String) (h1 : s ≠ "")
    (h2 : s.data.all Char.isDigit = true) :
    Legacy.inferRefType ("-" ++ s) = Legacy.RefType.digit := by
  have hd := dash_append_data s
  have hnil := data_ne_nil_of_ne_empty h1
  have hp : ("-" ++ s) ≠ "+" := by
    intro hEq; rw [String.ext_iff, hd] at hEq; simp at hEq
  have hm : ("-" ++ s) ≠ "-" := by
    intro hEq; rw [String.ext_iff, hd] at hEq; simp at hEq; exact hnil hEq
  have hs1 : ("-" ++ s) ≠ "*" := by
    intro hEq; rw [String.ext_iff, hd] at hEq; simp at hEq
  have hs2 : ("-" ++ s) ≠ "/" := by
    intro hEq; rw [String.ext_iff, hd] at hEq; simp at hEq
  have hs3 : ("-" ++ s) ≠ "^" := by
    intro hEq; rw [String.ext_iff, hd] at hEq; simp at hEq
  have hs4 : ("-" ++ s) ≠ "(" := by
    intro hEq; rw [String.ext_iff, hd] at hEq; simp at hEq
  have hs5 : ("-" ++ s) ≠ ")" := by
    intro hEq; rw [String.ext_iff, hd] at hEq; simp at hEq
  have hint : Legacy.isIntString ("-" ++ s) = true := by
    unfold Legacy.isIntString
    rw [hd]
    have hie : s.data.isEmpty = false := by
      cases hsd : s.data with
      | nil => exact absurd hsd hnil
      | cons c cs => rfl
    simp [hie, h2]
  unfold Legacy.inferRefType
  simp [hp, hm, hs1, hs2, hs3, hs4, hs5, hint]

/-- parseIntJS on a minus sign followed by digits negates the digits' value. -/
theorem parseIntJS_dash_digits (s : String) (h1 : s ≠ "")
    (h2 : s.data.all Char.isDigit = true) :
    parseIntJS ("-" ++ s) = (parseIntJS s).map (fun v => -v) := by
  have hd := dash_append_data s
  have hnil := data_ne_nil_of_ne_empty h1
  obtain ⟨c, cs, hs⟩ : ∃ c cs, s.data = c :: cs := by
    cases hsd : s.data with
    | nil => exact absurd hsd hnil
    | cons c cs => exact ⟨c, cs, rfl⟩
  have hcdig : c.isDigit = true := by
    rw [hs] at h2
    simp only [List.all_cons, Bool.and_eq_true] at h2
    exact h2.1
  have hcne : ¬(c = '-') := by
    intro hEq
    rw [hEq] at hcdig
    simp [Char.isDigit] at hcdig
  unfold parseIntJS
  rw [hd, hs]
  simp only [if_pos rfl, if_neg hcne, Option.map_map]
  rfl

/-! ## Claim theorems -/

/-- Claim C1.  The goal recognizer was meant to reject a sequence in which the
same named variable occurs as two separate terms, but
`counts[k] = counts[k] ?? 0 + 1` parses as `counts[k] ?? (0 + 1)`, so every
count stays 1 and the exactly-once check never fires: `x + x` (the variable x
twice, as two separate terms) is accepted as a goal. -/
theorem goal_duplicate_variable_accepted :
    Core.isLinearExpressionGoal [xVarRef, plusOpRef, xVarRef] = true := by
  rfl

/-- Claim C2, corrected.  The AModel constructor sets `remainCost` to
`getApproxCost` of the refs alone: for every Model built by `createModel`,
`remainCost = getApproxCost refs`, independent of the accumulated
`totalApproxCost`; and the driver's heap comparator orders exactly by this
`remainCost` (the claimed priority `totalApproxCost + heuristic` is refuted by
the counterexample). -/
theorem remainCost_equals_heuristic_only :
    (∀ (parent : Core.AModel) (t : String) (refs : List Core.ARef) (c : Int)
        (rr : Option Core.ARef),
      (Core.createModel parent t refs c rr).remainCost = Core.getApproxCost refs) ∧
    (∀ (p1 p2 : Core.AModel) (t : String) (refs : List Core.ARef) (c1 c2 : Int)
        (rr : Option Core.ARef),
      (Core.createModel p1 t refs c1 rr).remainCost
        = (Core.createModel p2 t refs c2 rr).remainCost) ∧
    (∀ a b : Core.AModel,
      Core.modelHeapCompare a b < 0 ↔ a.remainCost < b.remainCost) := by
  refine ⟨fun _ _ _ _ _ => rfl, fun _ _ _ _ _ _ _ => rfl, fun a b => ?_⟩
  unfold Core.modelHeapCompare
  omega

/-- Claim C2, counterexample.  A Model created with accumulated cost 5 over
goal-form refs (heuristic 0) has `remainCost = 0`, not
`totalApproxCost + heuristic = 5`: the heap priority is not the A* f-score. -/
theorem remainCost_not_f_score_cex :
    c2Child.remainCost ≠ c2Child.totalApproxCost + Core.getApproxCost c2Child.refs := by
  decide

/-- Claim C3, counterexample.  A state with two identical composite terms
(internal symbol ?1, not a goal because the composite is not of the `c * v`
shape) is charged `(2-1) * var-combine = 3` by `getApproxCost`, while the
claimed formula charges composite groups `(2-1) * expr-combine = 2`: the
`expr:` branch of the implementation is unreachable for its actual group
keys. -/
theorem heuristic_composite_group_cex :
    Core.getApproxCost c3Refs = 3 ∧ Core.heuristicClaimC3 c3Refs = 2 := by
  constructor <;> decide

/-- Claim C5.  The same-variable multiplication branch of applyMul guards on
equality of the operands' full canonical symbols, so the adjacent triple
`x^2 * x^3` (symbols "x^2" and "x^3" over the same named variable x) yields no
successor at all, contradicting the claimed `v^(p+q)` rewrite (spec scenario
E6 and the comment "x^2 * x^3 = x^5" in src/src/actions.ts); only operands
with the identical symbol, such as `x * x`, produce the (single) same-variable
successor at cost same-var-mul. -/
theorem applyMul_same_var_distinct_powers_bug :
    Core.applyMul c5Model = [] ∧
    (Core.applyMul (Core.createInitialModel [xVarRef, mulOpRef, xVarRef])).map
        (fun m => (m.transform, m.totalApproxCost))
      = [("multiply_same_var_1", COST.SAME_VAR_MUL)] := by
  constructor <;> rfl

/-- Claim C4.  Every local rewrite cost along a path is at least 1 — the
pairwise term cost is either the cancel reward or at least 1, the number
multiplication cost is at least 1, and the fixed generator costs
(coeff-var-mul, same-var-mul, div, the deferred-compute re-push) are at least
1 — and `createModel` makes `totalApproxCost(child) = totalApproxCost(parent)
+ cost`; hence the child's total strictly exceeds the parent's except for a
cancel-reward rewrite, where the decrease is bounded by
`|var-cancel-reward| = 5`. -/
theorem path_cost_monotone_except_cancel :
    (∀ (a b : Legacy.Term) (op : Legacy.Sign),
      Legacy.calculateTermAddCost a b op = COST.VAR_CANCEL_REWARD ∨
        1 ≤ Legacy.calculateTermAddCost a b op) ∧
    (∀ l r : Int, 1 ≤ Legacy.calculateMultiplicationCost l r) ∧
    ((1 : Int) ≤ COST.COEFF_VAR_MUL ∧ (1 : Int) ≤ COST.SAME_VAR_MUL ∧
      (1 : Int) ≤ COST.DIV_COST ∧ (1 : Int) ≤ COST.ADD_SINGLE_DIGIT) ∧
    (∀ (parent : Core.AModel) (t : String) (refs : List Core.ARef) (c : Int)
        (rr : Option Core.ARef),
      (Core.createModel parent t refs c rr).totalApproxCost
        = parent.totalApproxCost + c) ∧
    (∀ (parent : Core.AModel) (t : String) (refs : List Core.ARef) (c : Int)
        (rr : Option Core.ARef),
      1 ≤ c →
        parent.totalApproxCost < (Core.createModel parent t refs c rr).totalApproxCost) ∧
    (∀ (parent : Core.AModel) (t : String) (refs : List Core.ARef) (c : Int)
        (rr : Option Core.ARef),
      c = COST.VAR_CANCEL_REWARD →
        parent.totalApproxCost - (Core.createModel parent t refs c rr).totalApproxCost
          ≤ |COST.VAR_CANCEL_REWARD|) := by
  refine ⟨?_, legacy_multiplicationCost_pos, ?_, ?_, ?_, ?_⟩
  · intro a b op
    unfold Legacy.calculateTermAddCost
    split_ifs with h1 h2 h3 h4 h5
    · exact Or.inr (legacy_additionCost_pos _ _)
    · exact Or.inr (legacy_subtractionCost_pos _ _)
    · exact Or.inl rfl
    · exact Or.inr (by norm_num [COST.VAR_COMBINE_COST])
    · by_cases h6 : (op == Legacy.Sign.minus
          && ((Option.map Legacy.ARef.text a.refs.head?).getD ""
            == (Option.map Legacy.ARef.text b.refs.head?).getD "")) = true
      · exact Or.inl (by simp only [h6, if_true])
      · refine Or.inr ?_
        simp only [h6, if_false]
        norm_num [COST.EXPR_COMBINE_COST]
    · exact Or.inr (by norm_num [COST.VAR_BASE_COST])
  · exact ⟨by norm_num [COST.COEFF_VAR_MUL], by norm_num [COST.SAME_VAR_MUL],
      by norm_num [COST.DIV_COST], by norm_num [COST.ADD_SINGLE_DIGIT]⟩
  · intro parent t refs c rr
    rfl
  · intro parent t refs c rr hc
    have he : (Core.createModel parent t refs c rr).totalApproxCost
        = parent.totalApproxCost + c := rfl
    omega
  · intro parent t refs c rr hc
    have he : (Core.createModel parent t refs c rr).totalApproxCost
        = parent.totalApproxCost + c := rfl
    rw [he, hc]
    norm_num [COST.VAR_CANCEL_REWARD]

/-- Witness for claim C4: a concrete rewrite of cost 2 strictly increases the
path cost, and a concrete cancel-reward rewrite decreases it by at most 5. -/
theorem path_cost_monotone_except_cancel_witness :
    c4Parent.totalApproxCost < (Core.createModel c4Parent "w" [] 2 none).totalApproxCost ∧
    c4Parent.totalApproxCost
        - (Core.createModel c4Parent "w" [] COST.VAR_CANCEL_REWARD none).totalApproxCost
      ≤ |COST.VAR_CANCEL_REWARD| :=
  ⟨path_cost_monotone_except_cancel.2.2.2.2.1 c4Parent "w" [] 2 none (by norm_num),
   path_cost_monotone_except_cancel.2.2.2.2.2 c4Parent "w" [] COST.VAR_CANCEL_REWARD
     none rfl⟩

/-- Claim C9, counterexample.  Pushing A (priority 5), then C (priority 1),
then B (priority 5) and draining the driver's MinHeap pops B before A: of two
entries with equal priority, the one inserted later is popped first, refuting
the claimed insertion-order tie-break. -/
theorem minheap_tie_break_not_insertion_order_cex :
    Heap.heapPopAll Heap.prioCmp c9Heap.length c9Heap
      = [("C", 1), ("B", 5), ("A", 5)] := by
  rfl

/-- Claim C6.  On an adjacent `number / number` triple, both the applyDiv
generator and the legacy token-level applyDiv produce a rewrite exactly when
the right value is non-zero and the JavaScript remainder test
`leftVal % rightVal === 0` (truncated remainder) passes; the generator's
single successor carries cost `div` and a deferred division composite, the
legacy rewrite computes `Math.floor(leftVal / rightVal)`, the remainder test
is equivalent to exact divisibility, and under divisibility the floored
quotient is the exact integer quotient (times R gives back L); when R is zero
or does not divide L, no successor is produced for the triple and the
division is never evaluated. -/
theorem applyDiv_exact_division_guard :
    ∀ (L R : Int) (sL sR : String),
      parseIntJS sL = some L → parseIntJS sR = some R →
      (Core.applyDivGen (Core.createInitialModel [numRefOf sL L, divOpRef, numRefOf sR R])
          = if R ≠ 0 ∧ Int.tmod L R = 0 then [c6ExpectedModel L R sL sR] else []) ∧
      (Legacy.applyDiv [lDigitTok sL, lSlashTok, lDigitTok sR]
          = if R ≠ 0 ∧ Int.tmod L R = 0 then
              some [Legacy.createAref (toString (Int.fdiv L R)) [lDigitTok sL, lDigitTok sR]]
            else none) ∧
      (R ≠ 0 → (Int.tmod L R = 0 ↔ R ∣ L)) ∧
      (R ∣ L → R ≠ 0 → Int.fdiv L R * R = L) := by
  intro L R sL sR hL hR
  refine ⟨?_, ?_, ?_, ?_⟩
  · show Core.applyDivGenLoop
        (Core.createInitialModel [numRefOf sL L, divOpRef, numRefOf sR R])
        [numRefOf sL L, divOpRef, numRefOf sR R] 3 1 = _
    simp only [Core.applyDivGenLoop, Core.applyDivGenBody, Core.getAt, Core.tokenEquals,
      Core.getRefText, numRefOf, divOpRef, Core.ARef.isNumber, Core.ARef.isSymbol,
      Core.ARef.refType, Core.ARef.text, List.length_cons, List.length_nil,
      show ((1:Nat) - 1) = 0 from rfl, show ((1:Nat) + 1) = 2 from rfl,
      show ((1:Nat) + 2) = 3 from rfl,
      List.get?_cons_zero, List.get?_cons_succ, Option.getD_some, hL, hR]
    simp only [show ((1:Nat) < 3 - 1) = True from by norm_num,
      show ((2:Nat) < 3 - 1) = False from by norm_num, if_true, if_false,
      show (Core.RefType.number == Core.RefType.number) = true from rfl,
      show (Core.RefType.number == Core.RefType.symbol) = false from rfl,
      show (Core.RefType.number = Core.RefType.symbol) = False from by simp,
      show (("/" : String) == "/") = true from rfl,
      Bool.and_self, Bool.and_false, Bool.false_and, if_true, if_false,
      List.append_nil]
    split
    · rfl
    · rfl
  · show Legacy.applyDivLoop [lDigitTok sL, lSlashTok, lDigitTok sR] 3 1 = _
    simp only [Legacy.applyDivLoop, Legacy.applyDivBody,
      show ((1:Nat) - 1) = 0 from rfl, show ((1:Nat) + 1) = 2 from rfl,
      show ((1:Nat) + 2) = 3 from rfl,
      List.length_cons, List.length_nil,
      show Legacy.getAt [lDigitTok sL, lSlashTok, lDigitTok sR] 0 = lDigitTok sL from rfl,
      show Legacy.getAt [lDigitTok sL, lSlashTok, lDigitTok sR] 1 = lSlashTok from rfl,
      show Legacy.getAt [lDigitTok sL, lSlashTok, lDigitTok sR] 2 = lDigitTok sR from rfl,
      show Legacy.tokenEquals lSlashTok "/" = true from rfl,
      show Legacy.isNumber (lDigitTok sL) = true from rfl,
      show Legacy.isNumber (lDigitTok sR) = true from rfl,
      show Legacy.isVariable (lDigitTok sL) = false from rfl,
      show Legacy.getRefText (lDigitTok sL) = sL from rfl,
      show Legacy.getRefText (lDigitTok sR) = sR from rfl,
      hL, hR]
    simp only [show ((1:Nat) < 3 - 1) = True from by norm_num,
      show ((2:Nat) < 3 - 1) = False from by norm_num, if_true, if_false,
      Bool.and_self, Bool.and_false, Bool.false_and]
    by_cases hc : R ≠ 0 ∧ Int.tmod L R = 0
    · rw [if_pos hc, if_pos hc]
      rfl
    · rw [if_neg hc, if_neg hc]
      rfl
  · intro _h0
    exact ⟨fun ht => Int.dvd_of_tmod_eq_zero ht, fun hd => Int.tmod_eq_zero_of_dvd hd⟩
  · rintro ⟨k, rfl⟩ h0
    rw [Int.mul_fdiv_cancel_left k h0]
    ring


/-- Witness for claim C6 at the concrete triple `4 / 2`. -/
theorem applyDiv_exact_division_guard_witness :
    Core.applyDivGen (Core.createInitialModel [numRefOf "4" 4, divOpRef, numRefOf "2" 2])
      = [c6ExpectedModel 4 2 "4" "2"] := by
  have h := (applyDiv_exact_division_guard 4 2 "4" "2" rfl rfl).1
  simpa using h

/-- Claim C8, counterexample.  A '-' operator followed by the (negative)
number token -3 is rewritten to '+' followed by a ref of text `--3`, which is
classified as an expression, not as a number ref of value 3: the claimed
"number ref with value -n" fails for negative n. -/
theorem applySubToAdd_negative_number_cex :
    Legacy.applySubToAdd [lOneTok, lMinusTok, lNegThreeTok]
        = some [lOneTok, lPlusTok, c8CexOut] ∧
    c8CexOut.refType = Legacy.RefType.expr := by
  constructor
  · rfl
  · rfl

/-- Claim C8, amended.  For a number token with unsigned numeral text,
applySubToAdd rewrites the first `- n` (scanning from index 1) into `+`
followed by a number ref whose text `-n` denotes the negated value (the
driver charges such token-list rewrites a flat cost of 1); and the introduced
`+ (-n)` pair is never itself rewritten: a second pass over the output of a
single-occurrence state has nothing to rewrite.  A second pass can still
rewrite other, pre-existing `- number` occurrences elsewhere in the state,
one per call. -/
theorem applySubToAdd_rewrite_and_idempotent :
    ∀ (a : Legacy.ARef) (s : String), s ≠ "" → s.data.all Char.isDigit = true →
      (Legacy.applySubToAdd [a, lMinusTok, lDigitTok s]
          = some [a, Legacy.createAref "+", Legacy.createAref ("-" ++ s) [lDigitTok s]]) ∧
      (Legacy.createAref ("-" ++ s) [lDigitTok s]).refType = Legacy.RefType.digit ∧
      parseIntJS ("-" ++ s) = (parseIntJS s).map (fun v => -v) ∧
      Legacy.applySubToAdd [a, Legacy.createAref "+", Legacy.createAref ("-" ++ s) [lDigitTok s]]
          = none ∧
      tokenListRewriteCost = 1 := by
  intro a s h1 h2
  refine ⟨rfl, inferRefType_dash_digits s h1 h2, parseIntJS_dash_digits s h1 h2, ?_, rfl⟩
  show Legacy.applySubToAddLoop
      [a, Legacy.createAref "+", Legacy.createAref ("-" ++ s) [lDigitTok s]] 3 1 = none
  simp only [Legacy.applySubToAddLoop, List.length_cons, List.length_nil,
    show Legacy.getAt [a, Legacy.createAref "+", Legacy.createAref ("-" ++ s) [lDigitTok s]] 1
      = Legacy.createAref "+" from rfl,
    show Legacy.tokenEquals (Legacy.createAref "+") "-" = false from rfl,
    show (decide ((1:Nat) + 1 < 3)) = true from rfl,
    show (decide ((2:Nat) + 1 < 3)) = false from rfl,
    Bool.false_and, Bool.and_false, if_false,
    show ((1:Nat) < 3) = True from by norm_num,
    show ((2:Nat) < 3) = True from by norm_num,
    show ((3:Nat) < 3) = False from by norm_num,
    if_true, if_false]
  simp

/-- Witness for claim C8 at the state `1 - 7`. -/
theorem applySubToAdd_witness :
    Legacy.applySubToAdd [lOneTok, lMinusTok, lDigitTok "7"]
        = some [lOneTok, Legacy.createAref "+", Legacy.createAref ("-" ++ "7") [lDigitTok "7"]] :=
  (applySubToAdd_rewrite_and_idempotent lOneTok "7" (by decide) (by decide)).1

/-- Claim C10, counterexample.  applyCleanup on a leading '-' followed by the
(negative) number token -3 produces a single ref of text `--3`, which is an
expression ref, not the claimed negated number ref. -/
theorem applyCleanup_negative_number_cex :
    Legacy.applyCleanup [lMinusTok, lNegThreeTok] = some [c10CexOut] ∧
    c10CexOut.refType = Legacy.RefType.expr := by
  constructor
  · rfl
  · rfl

/-- Claim C10, amended.  applyCleanup returns a result only for sequences
whose first token is '+' or '-': any other first token (and the empty
sequence) gives null; a leading '+' is removed; a leading '-' followed by a
number token with unsigned numeral text yields the single number ref `-n`
(for a negative numeral the produced `--…` text is no longer a number ref,
see the counterexample); a leading '-' followed by a non-number returns the
input token sequence itself unchanged, so the driver can build a successor
whose state key equals its parent's; and a lone '-' gives null. -/
theorem applyCleanup_cases_amended :
    (∀ ts : List Legacy.ARef,
      (∀ hd, ts.head? = some hd → hd.text ≠ "+" ∧ hd.text ≠ "-") →
      Legacy.applyCleanup ts = none) ∧
    (∀ rest : List Legacy.ARef, Legacy.applyCleanup (lPlusTok :: rest) = some rest) ∧
    (∀ (s : String) (rest : List Legacy.ARef), s ≠ "" → s.data.all Char.isDigit = true →
      Legacy.applyCleanup (lMinusTok :: lDigitTok s :: rest)
          = some (Legacy.createAref ("-" ++ s) [lDigitTok s] :: rest) ∧
        (Legacy.createAref ("-" ++ s) [lDigitTok s]).refType = Legacy.RefType.digit) ∧
    (∀ (t : Legacy.ARef) (rest : List Legacy.ARef), t.refType ≠ Legacy.RefType.digit →
      Legacy.applyCleanup (lMinusTok :: t :: rest) = some (lMinusTok :: t :: rest)) ∧
    Legacy.applyCleanup [lMinusTok] = none := by
  refine ⟨?_, fun rest => rfl, ?_, ?_, rfl⟩
  · intro ts h
    cases ts with
    | nil => rfl
    | cons hd rest =>
      obtain ⟨h1, h2⟩ := h hd rfl
      unfold Legacy.applyCleanup
      simp only [List.length_cons,
        show ∀ n : Nat, (n + 1 = 0) = False from fun n => by simp,
        Legacy.tokenEquals, Legacy.getRefText,
        show Legacy.getAt (hd :: rest) 0 = hd from rfl,
        beq_eq_false_iff_ne.mpr h1, beq_eq_false_iff_ne.mpr h2,
        Bool.false_and, if_false]
      simp
  · intro s rest h1 h2
    refine ⟨?_, inferRefType_dash_digits s h1 h2⟩
    unfold Legacy.applyCleanup
    simp only [List.length_cons,
      show ∀ n : Nat, (n + 1 + 1 = 0) = False from fun n => by simp,
      show Legacy.getAt (lMinusTok :: lDigitTok s :: rest) 0 = lMinusTok from rfl,
      show Legacy.getAt (lMinusTok :: lDigitTok s :: rest) 1 = lDigitTok s from rfl,
      show Legacy.tokenEquals lMinusTok "+" = false from rfl,
      show Legacy.tokenEquals lMinusTok "-" = true from rfl,
      show Legacy.isNumber (lDigitTok s) = true from rfl,
      show ∀ n : Nat, decide (1 < n + 1 + 1) = true from
        fun n => decide_eq_true (by omega),
      Bool.true_and, Bool.and_true, if_true, if_false]
    · rfl
  · intro t rest ht
    unfold Legacy.applyCleanup
    have hnum : Legacy.isNumber (Legacy.getAt (lMinusTok :: t :: rest) 1) = false := by
      simp only [Legacy.isNumber, show Legacy.getAt (lMinusTok :: t :: rest) 1 = t from rfl]
      exact beq_eq_false_iff_ne.mpr ht
    simp only [List.length_cons,
      show ∀ n : Nat, (n + 1 + 1 = 0) = False from fun n => by simp,
      show Legacy.tokenEquals (Legacy.getAt (lMinusTok :: t :: rest) 0) "+" = false from rfl,
      show Legacy.tokenEquals (Legacy.getAt (lMinusTok :: t :: rest) 0) "-" = true from rfl,
      show ∀ n : Nat, decide (1 < n + 1 + 1) = true from
        fun n => decide_eq_true (by omega),
      hnum, Bool.true_and, Bool.and_true, if_false, if_true]
    simp

/-- Witness for claim C10 at the state `- 3`. -/
theorem applyCleanup_witness :
    Legacy.applyCleanup [lMinusTok, lDigitTok "3"]
        = some [Legacy.createAref ("-" ++ "3") [lDigitTok "3"]] :=
  (applyCleanup_cases_amended.2.2.1 "3" [] (by decide) (by decide)).1

/-- Claim C7, counterexample.  In `a + u - u + t - t` the term t occurs once
with '+' and once with '-', with no multiplication involved, yet applyCancel
removes the earlier `+ u … - u` pair and leaves both occurrences of t in
place: the claimed removal of T's occurrences fails when another cancellable
pair precedes them in scan order. -/
theorem applyCancel_first_pair_cex :
    Legacy.applyCancel c7CexTokens = some [lVarA, lPlusTok, lVarT, lMinusTok, lVarT] := by
  rfl

/-- Claim C7, amended.  applyCancel removes the first cancellable pair in its
scan order (all `+ T … - T` patterns are tried before `- T … + T` patterns).
When T's occurrences form the only such pair — here in a state `A ± T ∓ T`
with A and T ordinary terms — both occurrences are removed together with
their sign operators, and the result is identical whether the '+' occurrence
precedes or follows the '-' occurrence. -/
theorem applyCancel_unique_pair_symmetric :
    ∀ (A T : Legacy.ARef), A.text ≠ "+" → A.text ≠ "-" → T.text ≠ "+" →
      Legacy.applyCancel [A, lPlusTok, T, lMinusTok, T] = some [A] ∧
      Legacy.applyCancel [A, lMinusTok, T, lPlusTok, T] = some [A] := by
  intro A T hA1 hA2 hT1
  obtain ⟨ta, va, ra, aa⟩ := A
  obtain ⟨tb, vb, rb, ab⟩ := T
  simp only [Legacy.ARef.text] at hA1 hA2 hT1
  constructor
  · simp [Legacy.applyCancel, Legacy.cancelOuter, Legacy.cancelInner,
      Legacy.cancelLeadingInner, Legacy.isPartOfMultiplication, Legacy.tokenEquals,
      Legacy.getRefText, Legacy.getAt, Legacy.ARef.text, lPlusTok, lMinusTok,
      Legacy.createAref, Legacy.splice, hA1, hA2, hT1]
  · simp [Legacy.applyCancel, Legacy.cancelOuter, Legacy.cancelInner,
      Legacy.cancelLeadingInner, Legacy.isPartOfMultiplication, Legacy.tokenEquals,
      Legacy.getRefText, Legacy.getAt, Legacy.ARef.text, lPlusTok, lMinusTok,
      Legacy.createAref, Legacy.splice, hA1, hA2, hT1]


/-- Witness for claim C7: both orders of the pair around the variable t
cancel to the single leading term a. -/
theorem applyCancel_witness :
    Legacy.applyCancel [lVarA, lPlusTok, lVarT, lMinusTok, lVarT] = some [lVarA] ∧
    Legacy.applyCancel [lVarA, lMinusTok, lVarT, lPlusTok, lVarT] = some [lVarA] :=
  applyCancel_unique_pair_symmetric lVarA lVarT (by decide) (by decide) (by decide)

/-- Claim C9, amended.  The driver and its MinHeap are pure functions of the
push sequence, so two runs on the same input produce the same result; the
heap pops by priority, and for two-entry heaps an equal-priority tie is
resolved in insertion order, but ties are not broken by insertion order in
general: in any three-push sequence `first(p), cheaper(q), second(p)` with
`q < p`, the later-inserted equal-priority entry `second` is popped before
`first` (the binary-heap pop moves the last array element to the root). -/
theorem minheap_priority_order_amended :
    (∀ x y : String × Int,
      Heap.heapPopAll Heap.prioCmp 2
          (Heap.heapPush Heap.prioCmp (Heap.heapPush Heap.prioCmp [] x) y)
        = if Heap.prioCmp y x < 0 then [y, x] else [x, y]) ∧
    (∀ (a c b : String) (p q : Int), q < p →
      Heap.heapPopAll Heap.prioCmp 3
          (Heap.heapPush Heap.prioCmp
            (Heap.heapPush Heap.prioCmp (Heap.heapPush Heap.prioCmp [] (a, p)) (c, q))
            (b, p))
        = [(c, q), (b, p), (a, p)]) := by
  constructor
  · intro x y
    rcases lt_or_le (Heap.prioCmp y x) 0 with hc | hc
    · rw [if_pos hc]
      have h0 : ¬(0 ≤ Heap.prioCmp y x) := not_le.mpr hc
      simp [Heap.heapPush, Heap.heapPopAll, Heap.heapPop, Heap.bubbleUp,
        Heap.bubbleDown, Heap.swapAt, Heap.cmpAt, h0]
    · rw [if_neg (not_lt.mpr hc)]
      simp [Heap.heapPush, Heap.heapPopAll, Heap.heapPop, Heap.bubbleUp,
        Heap.bubbleDown, Heap.swapAt, Heap.cmpAt, hc]
  · intro a c b p q hqp
    have h1 : ¬(0 ≤ Heap.prioCmp (c, q) (a, p)) := by
      simp only [Heap.prioCmp]
      omega
    have h2 : 0 ≤ Heap.prioCmp (b, p) (c, q) := by
      simp only [Heap.prioCmp]
      omega
    have h3 : ¬(Heap.prioCmp (a, p) (b, p) < 0) := by
      simp only [Heap.prioCmp]
      omega
    simp [Heap.heapPush, Heap.heapPopAll, Heap.heapPop, Heap.bubbleUp,
      Heap.bubbleDown, Heap.swapAt, Heap.cmpAt, h1, h2, h3]


/-- Witness for claim C9: with priorities 7, 3, 7 the equal-priority entry
pushed last ("R") pops before the one pushed first ("P"). -/
theorem minheap_priority_order_witness :
    Heap.heapPopAll Heap.prioCmp 3
        (Heap.heapPush Heap.prioCmp
          (Heap.heapPush Heap.prioCmp (Heap.heapPush Heap.prioCmp [] ("P", 7)) ("Q", 3))
          ("R", 7))
      = [("Q", 3), ("R", 7), ("P", 7)] :=
  minheap_priority_order_amended.2 "P" "Q" "R" 7 3 (by norm_num)

/-- Claim C3, amended.  For every ref sequence whose term group keys do not
begin with "expr:" (true of all keys the implementation generates: "number",
`name^power`, `other:…`), getApproxCost equals the claimed formula with two
corrections: every non-number group — composite and variable alike — is
charged `(n-1) * var-combine` (the expr-combine branch is unreachable), and a
non-goal state with at most one term-role ref is instead charged its count of
non-operator refs.  The remaining structure is as claimed: 0 on goals,
`(g-1) * var-base` when there are `g > 1` groups, and
`mul-single-digit * log10(MAX)` per mul/div/pow operator ref, with MAX = 100. -/
theorem getApproxCost_grouping_amended :
    ∀ refs : List Core.ARef,
      (∀ t ∈ refs.filter (fun r => r.role == some Core.TokenRole.term),
        strStartsWith (Core.groupKey t) "expr:" = false) →
      Core.getApproxCost refs = Core.heuristicAmendedC3 refs := by
  intro refs h
  by_cases hg : Core.isLinearExpressionGoal refs = true
  · unfold Core.getApproxCost Core.heuristicAmendedC3
    rw [if_pos hg, if_pos hg]
  · by_cases ht : (refs.filter (fun r => r.role == some Core.TokenRole.term)).length ≤ 1
    · unfold Core.getApproxCost Core.heuristicAmendedC3
      simp only []
      rw [if_neg hg, if_neg hg, if_pos ht, if_pos ht]
    · unfold Core.getApproxCost Core.heuristicAmendedC3
      simp only []
      rw [if_neg hg, if_neg hg, if_neg ht, if_neg ht, List.map_map]
      congr 1
      congr 1
      · refine congrArg List.sum (List.map_congr_left ?_)
        intro k hk
        simp only [Function.comp]
        rw [List.countP_eq_length_filter]
        by_cases hm : (List.filter (fun t => Core.groupKey t == k)
            (refs.filter (fun r => r.role == some Core.TokenRole.term))).length ≤ 1
        · rw [if_pos hm, if_neg (by omega)]
        · rw [if_neg hm, if_pos (by omega)]
          congr 1
          have hk' : k ∈ (refs.filter
              (fun r => r.role == some Core.TokenRole.term)).map Core.groupKey :=
            firstKeys_mem hk
          obtain ⟨t, htm, rfl⟩ := List.mem_map.mp hk'
          have hexp := h t htm
          unfold Core.groupBaseCost Core.amendedBaseC3
          by_cases hnum : (Core.groupKey t == "number") = true
          · rw [if_pos hnum, if_pos hnum]
          · rw [if_neg hnum, if_neg hnum, if_neg (by simp [hexp])]
      · rw [List.length_map]


/-- Witness for claim C3 at the two-composite state `?1 + ?1`. -/
theorem getApproxCost_grouping_amended_witness :
    Core.getApproxCost c3Refs = Core.heuristicAmendedC3 c3Refs :=
  getApproxCost_grouping_amended c3Refs (by decide)

end FoolJS
